import Mathlib

/-!
Verification development for the LBDserver multi-store lifecycle coordinator
(projectApi source file).  The TypeScript source is embedded shallowly:
strings are Lean `String`s (lists of characters), the two backing stores and
the other collaborators are supplied as an explicit environment of functions,
a lifecycle operation returns an `Except` value together with the ordered
trace of collaborator calls it issued, and JavaScript mutation of request
scoped objects is made explicit by threading values.
-/

namespace Lbd

/-! ## String primitives mirroring the JavaScript string operations -/

/-- Boolean test that `p` is a leading segment of `l` (character lists). -/
def leadsList (p l : List Char) : Bool :=
  match p, l with
  | [], _ => true
  | _ :: _, [] => false
  | x :: xs, y :: ys => x = y && leadsList xs ys

/-- JavaScript `String.prototype.includes`: `p` occurs contiguously in `l`. -/
def hasSub (p : List Char) : List Char → Bool
  | [] => p.isEmpty
  | c :: rest => leadsList p (c :: rest) || hasSub p rest

/-- Number of (possibly overlapping) occurrences of `p` in `l`. -/
def subCount (p : List Char) : List Char → Nat
  | [] => 0
  | c :: rest => (if leadsList p (c :: rest) then 1 else 0) + subCount p rest

/-- String wrapper for `hasSub`. -/
def hasSubStr (s pat : String) : Bool := hasSub pat.data s.data

/-- JavaScript `String.prototype.toLowerCase` (the ASCII case suffices for
the claims; every string the claims touch is ASCII). -/
def lowerStr (s : String) : String := ⟨s.data.map Char.toLower⟩

/-- JavaScript `String.prototype.endsWith`. -/
def endsW (s suffix : String) : Bool := leadsList suffix.data.reverse s.data.reverse

/-- Uppercase hexadecimal digit for `n < 16`, as produced by
JavaScript `encodeURIComponent`. -/
def hexUp (n : Nat) : Char := if n < 10 then Char.ofNat (48 + n) else Char.ofNat (55 + n)

/-- `%HH` percent-escape of one byte. -/
def byteHex (b : Nat) : List Char := ['%', hexUp (b / 16), hexUp (b % 16)]

/-- UTF-8 bytes of one code point. -/
def utf8Bytes (c : Char) : List Nat :=
  let n := c.toNat
  if n < 128 then [n]
  else if n < 2048 then [192 + n / 64, 128 + n % 64]
  else if n < 65536 then [224 + n / 4096, 128 + (n / 64) % 64, 128 + n % 64]
  else [240 + n / 262144, 128 + (n / 4096) % 64, 128 + (n / 64) % 64, 128 + n % 64]

/-- The characters `encodeURIComponent` leaves unescaped. -/
def uriUnreserved (c : Char) : Bool :=
  (decide ('A' ≤ c) && decide (c ≤ 'Z')) || (decide ('a' ≤ c) && decide (c ≤ 'z')) ||
  (decide ('0' ≤ c) && decide (c ≤ '9')) ||
  c ∈ ['-', '_', '.', '!', '~', '*', Char.ofNat 39, '(', ')']

/-- JavaScript `encodeURIComponent`. -/
def encURIComp (s : String) : String :=
  ⟨(s.data.map fun c =>
      if uriUnreserved c then [c] else ((utf8Bytes c).map byteHex).flatten).flatten⟩

/-- Numeric value of a hexadecimal digit character, if any. -/
def hexVal (c : Char) : Option Nat :=
  if decide ('0' ≤ c) && decide (c ≤ '9') then some (c.toNat - 48)
  else if decide ('A' ≤ c) && decide (c ≤ 'F') then some (c.toNat - 55)
  else if decide ('a' ≤ c) && decide (c ≤ 'f') then some (c.toNat - 87)
  else none

/-- Turn percent-escaped text into its byte sequence (`none` on a malformed
escape, as `decodeURIComponent` rejects those). -/
def pctBytes : List Char → Option (List Nat)
  | [] => some []
  | '%' :: h1 :: h2 :: rest => do
      let a ← hexVal h1
      let b ← hexVal h2
      let r ← pctBytes rest
      pure ((16 * a + b) :: r)
  | '%' :: _ => none
  | c :: rest => do
      let r ← pctBytes rest
      pure (utf8Bytes c ++ r)

/-- Whether a byte is a UTF-8 continuation byte. -/
def contByte (b : Nat) : Bool := 128 ≤ b && b ≤ 191

/-- UTF-8 decoding of a byte sequence. -/
def utf8Dec : List Nat → Option (List Char)
  | [] => some []
  | b :: rest =>
    if b < 128 then do
      let r ← utf8Dec rest
      pure (Char.ofNat b :: r)
    else if 194 ≤ b && b ≤ 223 then
      match rest with
      | b2 :: rest2 =>
        if contByte b2 then do
          let r ← utf8Dec rest2
          pure (Char.ofNat ((b - 192) * 64 + (b2 - 128)) :: r)
        else none
      | _ => none
    else if 224 ≤ b && b ≤ 239 then
      match rest with
      | b2 :: b3 :: rest3 =>
        if contByte b2 && contByte b3 then do
          let r ← utf8Dec rest3
          pure (Char.ofNat ((b - 224) * 4096 + (b2 - 128) * 64 + (b3 - 128)) :: r)
        else none
      | _ => none
    else if 240 ≤ b && b ≤ 244 then
      match rest with
      | b2 :: b3 :: b4 :: rest4 =>
        if contByte b2 && contByte b3 && contByte b4 then do
          let r ← utf8Dec rest4
          pure (Char.ofNat ((b - 240) * 262144 + (b2 - 128) * 4096 + (b3 - 128) * 64 + (b4 - 128)) :: r)
        else none
      | _ => none
    else none

/-- JavaScript `decodeURIComponent` (partial: `none` where it would raise
`URIError`). -/
def decURIComp (s : String) : Option String :=
  ((pctBytes s.data).bind utf8Dec).map fun l => ⟨l⟩

/-! ## Collaborators, calls and state

The document store, the graph store and the other collaborators of §6 are
externals.  Each lifecycle operation is embedded as a function of an
environment `Env` of collaborator behaviours; it returns its JavaScript
result (`Except` capturing a thrown error) together with the ordered list
of store calls it issued, so the theorems can speak about which stores were
touched and in what order. -/

/-- The authenticated caller (`req.user`, a document-store principal). -/
structure Principal where
  uri : String
  email : String
  projects : List String
  deriving Repr, DecidableEq

/-- One collaborator call, with the arguments that matter to the claims
(the `createNamedGraph` entry records the repository, the context and the
`acl` field of the graph object it is given). -/
inductive DBCall where
  | createRepository (title id : String)
  | createProjectDoc (url id : String)
  | saveUser (projects : List String)
  | deleteProjectDoc (id : String)
  | deleteRepository (id : String)
  | createNamedGraph (repo ctx : String) (acl : Option String)
  | getNamedGraph (ctx repo : String)
  | getAllNamedGraphs (repo : String)
  | queryRepository (repo q : String)
  | fileList (repo : String)
  deriving Repr, DecidableEq

/-- Behaviour of the collaborators: each returns its JavaScript value or the
message of the error it throws.  `namedGraphMeta` is the synchronous
metadata serializer of the graph-store module. -/
structure Env where
  createRepository : String → String → Except String Bool
  createProjectDoc : String → String → Except String Bool
  saveUser : List String → Except String Bool
  deleteProjectDoc : String → Except String Bool
  deleteRepository : String → Except String Bool
  createNamedGraph : String → String → String → Option String → Option String → Except String Bool
  getNamedGraph : String → String → Except String String
  getAllNamedGraphs : String → Except String (List String)
  queryRepository : String → String → Except String String
  fileList : String → Except String (List String)
  namedGraphMeta : String → String → Option String → Option String → String

/-- Replay one recorded call against the environment, reduced to its
success/failure outcome (used by the compensation runner). -/
def runCall (env : Env) : DBCall → Except String Bool
  | .createRepository t id => env.createRepository t id
  | .createProjectDoc url id => env.createProjectDoc url id
  | .saveUser l => env.saveUser l
  | .deleteProjectDoc id => env.deleteProjectDoc id
  | .deleteRepository id => env.deleteRepository id
  | .createNamedGraph repo ctx acl => env.createNamedGraph repo ctx (ctx ++ "#") acl none
  | .getNamedGraph ctx repo => (env.getNamedGraph ctx repo).map fun _ => true
  | .getAllNamedGraphs repo => (env.getAllNamedGraphs repo).map fun _ => true
  | .queryRepository repo q => (env.queryRepository repo q).map fun _ => true
  | .fileList repo => (env.fileList repo).map fun _ => true

/-- Persistent backing-store state observed by the claims: which graph-store
repositories exist, which document-store project records exist, and the
persisted project list of the owner principal. -/
structure DBState where
  repos : List String
  projectDocs : List String
  userProjects : List String
  deriving Repr, DecidableEq

/-- Effect of one call on the backing stores, conditional on the
environment letting it succeed (a call that throws changes nothing). -/
def applyCall (env : Env) (st : DBState) : DBCall → DBState
  | .createRepository t id =>
    match env.createRepository t id with
    | .ok true => { st with repos := st.repos ++ [id] }
    | _ => st
  | .createProjectDoc url id =>
    match env.createProjectDoc url id with
    | .ok _ => { st with projectDocs := st.projectDocs ++ [id] }
    | _ => st
  | .saveUser l =>
    match env.saveUser l with
    | .ok _ => { st with userProjects := l }
    | _ => st
  | .deleteProjectDoc id =>
    match env.deleteProjectDoc id with
    | .ok _ => { st with projectDocs := st.projectDocs.filter (· ≠ id) }
    | _ => st
  | .deleteRepository id =>
    match env.deleteRepository id with
    | .ok _ => { st with repos := st.repos.filter (· ≠ id) }
    | _ => st
  | _ => st

/-- Fold a call trace over an initial store state. -/
def runTrace (env : Env) (st : DBState) (calls : List DBCall) : DBState :=
  calls.foldl (applyCall env) st

/-! ## Resource naming (§4.1), as used by `createProject` -/

/-- `{base}/lbd/{id}` — the project repository URL. -/
def projectRepoUrl (domainUrl id : String) : String := domainUrl ++ "/lbd/" ++ id

/-- `{base}/lbd/{id}.meta` — the project meta-graph URL. -/
def projectMetaUrl (domainUrl id : String) : String := domainUrl ++ "/lbd/" ++ id ++ ".meta"

/-- `{base}/lbd/{id}/.acl` — the project ACL URL `createProject` derives
from the configured base domain (`process.env.DOMAIN_URL`). -/
def projectAclUrl (domainUrl id : String) : String := domainUrl ++ "/lbd/" ++ id ++ "/.acl"

/-! ## Saga bookkeeping and the compensation runner -/

/-- Value held in one slot of a `writeCommands` record.  In the source a
slot normally holds the object literal with a `done` flag and the
`undoArgs`; `deleteProject` (line 225) overwrites one slot with the whole
result of `owner.save()` — a document object with no `done` field — which
the `savedDoc` constructor captures. -/
inductive JsVal where
  | step (doneFlag : Bool) (undoCall : DBCall)
  | savedDoc (projects : List String)
  deriving Repr, DecidableEq

/-- JavaScript truthiness of `slot.done`: on a clobbered slot the field is
`undefined`, hence falsy. -/
def JsVal.doneTruthy : JsVal → Bool
  | .step d _ => d
  | .savedDoc _ => false

/-- The compensation call bound into the slot, when the slot still is a
step record. -/
def JsVal.undoOf : JsVal → Option DBCall
  | .step _ u => some u
  | .savedDoc _ => none

/-- Modelled from the spec: `undoDatabaseActions` lives in
`util/databaseCleanup`, which is not among the sources; §4.4 and the §3
SagaOperation invariant define it: run the compensation of every step whose
status is Done (a truthy `done` flag; Pending and Failed steps are falsy),
in strict reverse declaration order, attempting every one even when an
earlier compensation fails, and collecting the failures.  Returns the
collected failure messages (declaration-reverse order) and the attempted
compensation calls. -/
def runUndos (env : Env) : List (String × JsVal) → List String × List DBCall
  | [] => ([], [])
  | (name, v) :: rest =>
    if v.doneTruthy then
      match v.undoOf with
      | some u =>
        let (fs, tr) := runUndos env rest
        match runCall env u with
        | .ok _ => (fs, u :: tr)
        | .error e => ((name ++ ": " ++ e) :: fs, u :: tr)
      | none => runUndos env rest
    else runUndos env rest

/-- Modelled from the spec: the entry point of `util/databaseCleanup`
(see `runUndos`).  Succeeds when every attempted compensation succeeded and
otherwise raises the single composite error aggregating every compensation
failure. -/
def undoDatabaseActions (env : Env) (cmds : List (String × JsVal)) :
    Except String Unit × List DBCall :=
  let (fs, tr) := runUndos env cmds.reverse
  (if fs.isEmpty then .ok () else .error (String.intercalate "; " fs), tr)

/-! ## ACL bootstrap generator (`createDefaultAclGraph`, source lines 66-102) -/

/-- The serialized default ACL graph text, transcribed from the template
literals of `createDefaultAclGraph`. -/
def createDefaultAclGraphData (id uri email : String) (isOpen : Bool) : String :=
  "\n# Root ACL resource for LBDserver project with id " ++ id ++
  "\n@prefix acl: <http://www.w3.org/ns/auth/acl#>.\n@prefix lbd: <https://lbdserver.org/vocabulary#>.\n@prefix vcard: <http://www.w3.org/2006/vcard/ns#>.\n@prefix foaf: <http://xmlns.com/foaf/0.1/>.\n\n# The owner has all permissions\n<#owner>\n    a acl:Authorization;\n    acl:agent <" ++
  uri ++ ">;\n    acl:mode acl:Read, acl:Write, acl:Control.\n\n<" ++ uri ++
  "> vcard:email \"" ++ email ++ "\".\n\n" ++
  (if isOpen then
    "\n  <#visitor>\n    a acl:Authorization;\n    acl:agentClass foaf:Agent;\n    acl:mode acl:Read."
  else "")

/-- `createDefaultAclGraph`: build the bootstrap ACL text and write it as
the named graph at the project ACL context. -/
def createDefaultAclGraph (env : Env) (id : String) (creator : Principal)
    (aclUrl : String) (isOpen : Bool) : Except String Bool × List DBCall :=
  let data := createDefaultAclGraphData id creator.uri creator.email isOpen
  match env.createNamedGraph id aclUrl (aclUrl ++ "#") none (some data) with
  | .ok _ => (.ok true, [.createNamedGraph id aclUrl none])
  | .error e =>
    (.error ("Failed creating the default ACL graph; " ++ e), [.createNamedGraph id aclUrl none])

/-! ## `createProject` (source lines 12-63) -/

/-- The composite error `createProject` raises from its catch block. -/
def createProjectErr (cause : String) (undo : Except String Unit) : String :=
  "Failed to create Project; " ++ cause ++ ". Undoing past operations: " ++
  (match undo with | .ok _ => "SUCCESS" | .error m => m)

/-- The `writeCommands` record of `createProject` at a given set of done
flags, with the compensations of `util/databaseCleanup` made explicit
(delete the repository, delete the project record, remove the id from the
creator's list — the list after `push` — and persist). -/
def createProjectCommands (id : String) (projs : List String)
    (d1 d2 d3 : Bool) : List (String × JsVal) :=
  [("createProjectRepository", .step d1 (.deleteRepository id)),
   ("createProjectDoc", .step d2 (.deleteProjectDoc id)),
   ("saveProjectToUser", .step d3 (.saveUser (projs.filter (· ≠ id))))]

/-- `createProject`.  `id` stands for the generated `v4()` value,
`domainUrl` for `process.env.DOMAIN_URL`, `user` for `req.user`.  The
result carries the returned metadata string and message; the second
component is the trace of store calls. -/
def createProject (env : Env) (domainUrl : String) (user : Option Principal)
    (title descr : String) (isOpen : Bool) (id : String) :
    Except String (String × String) × List DBCall :=
  let metaTitle := projectMetaUrl domainUrl id
  let repoUrl := projectRepoUrl domainUrl id
  let acl := projectAclUrl domainUrl id
  match user with
  | none => (.error "You must be authenticated to create a new LBDserver Project", [])
  | some creator =>
    let repoMetaData := env.namedGraphMeta repoUrl acl (some title) (some descr)
    let projs := creator.projects ++ [id]
    let catchWith := fun (cause : String) (d1 d2 d3 : Bool) =>
      let (u, utr) := undoDatabaseActions env (createProjectCommands id projs d1 d2 d3)
      ((Except.error (createProjectErr cause u) : Except String (String × String)), utr)
    match env.createRepository title id with
    | .error e =>
      let (r, utr) := catchWith e false false false
      (r, [.createRepository title id] ++ utr)
    | .ok b1 =>
      match env.createProjectDoc repoUrl id with
      | .error e =>
        let (r, utr) := catchWith e b1 false false
        (r, [.createRepository title id, .createProjectDoc repoUrl id] ++ utr)
      | .ok b2 =>
        match env.saveUser projs with
        | .error e =>
          let (r, utr) := catchWith e b1 b2 false
          (r, [.createRepository title id, .createProjectDoc repoUrl id,
               .saveUser projs] ++ utr)
        | .ok b3 =>
          let head := [DBCall.createRepository title id, .createProjectDoc repoUrl id,
                       .saveUser projs, .createNamedGraph id metaTitle none]
          match env.createNamedGraph id metaTitle metaTitle (none) (some repoMetaData) with
          | .error e =>
            let (r, utr) := catchWith e b1 b2 b3
            (r, head ++ utr)
          | .ok _ =>
            match createDefaultAclGraph env id creator acl isOpen with
            | (.error e, t) =>
              let (r, utr) := catchWith e b1 b2 b3
              (r, head ++ t ++ utr)
            | (.ok _, t) =>
              (.ok (repoMetaData, "Project successfully created"), head ++ t)

/-! ## `deleteProject` (source lines 206-243) -/

/-- The composite error of `deleteProject`'s catch block (whose message
text says "create", copied from `createProject` in the source). -/
def deleteProjectErr (id cause : String) (undo : Except String Unit) : String :=
  "Failed to create Project with id " ++ id ++ "; " ++ cause ++
  ". Undoing past operations: " ++
  (match undo with | .ok _ => "SUCCESS" | .error m => m)

/-- `deleteProject`.  The slot for the `deleteProjectFromUser` step is the
transcription of source line 225, which assigns the result of
`owner.save()` to the whole slot (`JsVal.savedDoc`) instead of to its
`done` field, discarding the step record. -/
def deleteProject (env : Env) (domainUrl id : String) (owner : Principal) :
    Except String Unit × List DBCall :=
  let repoUrl := projectRepoUrl domainUrl id
  let newProjectList := owner.projects.filter (· ≠ id)
  let catchWith := fun (cause : String) (slot1 slot2 : JsVal) =>
    let (u, utr) := undoDatabaseActions env
      [("deleteProjectDoc", slot1), ("deleteProjectFromUser", slot2)]
    ((Except.error (deleteProjectErr id cause u) : Except String Unit), utr)
  match env.saveUser newProjectList with
  | .error e =>
    let (r, utr) := catchWith e (.step false (.createProjectDoc repoUrl id))
      (.step false (.saveUser (newProjectList ++ [id])))
    (r, [.saveUser newProjectList] ++ utr)
  | .ok _ =>
    match env.deleteProjectDoc id with
    | .error e =>
      let (r, utr) := catchWith e (.step false (.createProjectDoc repoUrl id))
        (.savedDoc newProjectList)
      (r, [.saveUser newProjectList, .deleteProjectDoc id] ++ utr)
    | .ok b2 =>
      match env.deleteRepository id with
      | .error e =>
        let (r, utr) := catchWith e (.step b2 (.createProjectDoc repoUrl id))
          (.savedDoc newProjectList)
        (r, [.saveUser newProjectList, .deleteProjectDoc id, .deleteRepository id] ++ utr)
      | .ok _ =>
        (.ok (), [.saveUser newProjectList, .deleteProjectDoc id, .deleteRepository id])

/-! ## `queryProject` (source lines 246-265) -/

/-- The read gate of `queryProject` (source lines 250-254): the raw query,
lowercased, must contain "select", and the `encodeURIComponent`-encoded
query, lowercased, must contain neither "insert" nor "delete". -/
def queryReadGate (raw : String) : Bool :=
  hasSubStr (lowerStr raw) "select" &&
  !(hasSubStr (lowerStr (encURIComp raw)) "insert") &&
  !(hasSubStr (lowerStr (encURIComp raw)) "delete")

/-- The wrapped rejection error of the read gate. -/
def queryGateErr : String :=
  "Could not complete query; This SPARQL query is not allowed in a GET request. Use POST for INSERT and DELETE queries"

/-- `queryProject`.  `method` is `req.method`, `queryParam` is
`req.query.query` (`none` for `undefined`, in which case line 251 raises a
TypeError whose text we abbreviate).  A non-GET request falls through the
whole `if` and resolves with `undefined`, embedded as `.ok none`. -/
def queryProject (env : Env) (method : String) (queryParam : Option String)
    (projectName : String) : Except String (Option String) × List DBCall :=
  if method = "GET" then
    match queryParam with
    | none => (.error "Could not complete query; TypeError on undefined query", [])
    | some raw =>
      let query := encURIComp raw
      if queryReadGate raw then
        match env.queryRepository projectName query with
        | .ok results => (.ok (some results), [.queryRepository projectName query])
        | .error e =>
          (.error ("Could not complete query; " ++ e), [.queryRepository projectName query])
      else (.error queryGateErr, [])
  else (.ok none, [])

/-! ## `setAcl`, `setGraph`, `setMetaGraph` (source lines 496-604) -/

/-- The hardcoded default ACL reference of `setAcl` (source line 503). -/
def setAclDefault (projectName : String) : String :=
  "https://lbdserver.org/lbd/" ++ projectName ++ "/.acl"

/-- `setAcl`: resolve the ACL reference for a new resource.  The inputs are
the optional request parts it reads (`req.body.acl`, `req.files.acl`,
`req.body.aclName`, `req.files.aclName`).  Note the default branch ignores
the configured base domain. -/
def setAcl (env : Env) (projectName : String)
    (bodyAcl filesAcl bodyAclName filesAclName : Option String) :
    Except String String × List DBCall :=
  match filesAcl with
  | none =>
    match bodyAcl with
    | none => (.ok (setAclDefault projectName), [])
    | some a =>
      match env.getNamedGraph a projectName with
      | .ok _ => (.ok a, [.getNamedGraph a projectName])
      | .error _ =>
        -- the inner catch throws a plain `{reason, status}` object, which
        -- has no `message`; the outer catch therefore reports "undefined"
        (.error "Could not create ACL file; undefined", [.getNamedGraph a projectName])
  | some fileData =>
    match filesAclName with
    | none =>
      (.error "Could not create ACL file; When uploading a custom acl file, please set a context URL for it", [])
    | some _ =>
      -- the context written is `req.body.aclName` (JavaScript `undefined`
      -- when the body field is missing, rendered here as "undefined")
      let ctx := match bodyAclName with | some s => s | none => "undefined"
      match env.createNamedGraph projectName ctx (ctx ++ "#") none (some fileData) with
      | .ok _ => (.ok ctx, [.createNamedGraph projectName ctx none])
      | .error e =>
        (.error ("Could not create ACL file; " ++ e), [.createNamedGraph projectName ctx none])

/-- The bootstrap triple written when no graph file is uploaded
(source lines 561-568). -/
def blankGraphData (context : String) : String :=
  "\n@prefix : <" ++ context ++ "#>.\n@prefix sp: <http://spinrdf.org/sp#>.\n@prefix bot: <https://w3id.org/bot#>.\n@prefix stg: <https://raw.githubusercontent.com/JWerbrouck/Thesis/master/stg.ttl#>.\n\n: a sp:NamedGraph .\n        "

/-- `setGraph`: write the resource graph itself, carrying the resolved ACL
reference in its `acl` field. -/
def setGraph (env : Env) (projectName acl context : String)
    (filesGraph : Option String) : Except String String × List DBCall :=
  let data := match filesGraph with
    | some g => g
    | none => blankGraphData context
  match env.createNamedGraph projectName context (context ++ "#") (some acl) (some data) with
  | .ok _ => (.ok context, [.createNamedGraph projectName context (some acl)])
  | .error e =>
    (.error ("Could not create graph with context " ++ context ++ "; " ++ e),
     [.createNamedGraph projectName context (some acl)])

/-- `setMetaGraph`: serialize the companion metadata (which embeds the ACL
reference) and write it at `uri ++ ".meta"`. -/
def setMetaGraph (env : Env) (projectName uri acl : String)
    (label descr : Option String) : Except String String × List DBCall :=
  let graphMetaData := env.namedGraphMeta uri acl label descr
  match env.createNamedGraph projectName (uri ++ ".meta") (uri ++ ".meta#") none (some graphMetaData) with
  | .ok _ => (.ok graphMetaData, [.createNamedGraph projectName (uri ++ ".meta") none])
  | .error e =>
    (.error ("Could not create metadata graph with context " ++ uri ++ "; " ++ e),
     [.createNamedGraph projectName (uri ++ ".meta") none])

/-! ## `createNamedGraph` route handler (source lines 349-390) -/

/-- `createNamedGraphOp` (the exported `createNamedGraph` handler).
`newId` stands for the generated `v4()` value and `user` for `req.user`,
which the handler never reads.  The success value is the 201 payload
`(message, metaGraph, url)`; errors carry the thrown message (the
`errorHandler` collaborator of `util/errorHandler` only maps it to an HTTP
status). -/
def createNamedGraphOp (env : Env) (domainUrl projectName : String)
    (_user : Option Principal)
    (bodyAcl filesAcl bodyAclName filesAclName filesGraph bodyLabel bodyDescr : Option String)
    (newId : String) :
    Except String (String × String × String) × List DBCall :=
  let context := domainUrl ++ "/lbd/" ++ projectName ++ "/graphs/" ++ newId
  match env.getAllNamedGraphs projectName with
  | .error e => (.error e, [.getAllNamedGraphs projectName])
  | .ok _allNamed =>
    -- `presentGraphs` is collected from the result and then never used
    match setAcl env projectName bodyAcl filesAcl bodyAclName filesAclName with
    | (.error e, t1) => (.error e, [.getAllNamedGraphs projectName] ++ t1)
    | (.ok acl, t1) =>
      match setGraph env projectName acl context filesGraph with
      | (.error e, t2) => (.error e, [.getAllNamedGraphs projectName] ++ t1 ++ t2)
      | (.ok _, t2) =>
        match setMetaGraph env projectName context acl bodyLabel bodyDescr with
        | (.error e, t3) =>
          (.error e, [.getAllNamedGraphs projectName] ++ t1 ++ t2 ++ t3)
        | (.ok metaContext, t3) =>
          (.ok ("Successfully created the named graph with context " ++ context,
                metaContext, context),
           [.getAllNamedGraphs projectName] ++ t1 ++ t2 ++ t3)

/-! ## `findProjectData` (source lines 157-203) -/

/-- The aggregate returned by `findProjectData`; `graphs` and `documents`
are association lists in JavaScript insertion order. -/
structure ProjectData where
  metadata : String
  graphs : List (String × String)
  documents : List (String × String)
  id : String
  deriving Repr, DecidableEq

/-- The documents loop: for each file URL fetch its `.meta` companion,
stopping at the first failing fetch as the `await` would. -/
def buildDocs (env : Env) (projectName : String) :
    List String → Except String (List (String × String)) × List DBCall
  | [] => (.ok [], [])
  | url :: rest =>
    match env.getNamedGraph (url ++ ".meta") projectName with
    | .error e => (.error e, [.getNamedGraph (url ++ ".meta") projectName])
    | .ok v =>
      match buildDocs env projectName rest with
      | (.ok m, t) => (.ok ((url, v) :: m), [.getNamedGraph (url ++ ".meta") projectName] ++ t)
      | (.error e, t) => (.error e, [.getNamedGraph (url ++ ".meta") projectName] ++ t)

/-- The test of source lines 181-184: keep a context unless it ends with
"acl" or ends with "meta" (plain suffixes, no dot). -/
def graphsKeepTest (ctx : String) : Bool := !(endsW ctx "acl") && !(endsW ctx "meta")

/-- The graphs loop: for each kept context fetch `ctx ++ ".meta"` as its
value, stopping at the first failing fetch. -/
def buildGraphs (env : Env) (projectName : String) :
    List String → Except String (List (String × String)) × List DBCall
  | [] => (.ok [], [])
  | ctx :: rest =>
    if graphsKeepTest ctx then
      match env.getNamedGraph (ctx ++ ".meta") projectName with
      | .error e => (.error e, [.getNamedGraph (ctx ++ ".meta") projectName])
      | .ok v =>
        match buildGraphs env projectName rest with
        | (.ok m, t) => (.ok ((ctx, v) :: m), [.getNamedGraph (ctx ++ ".meta") projectName] ++ t)
        | (.error e, t) => (.error e, [.getNamedGraph (ctx ++ ".meta") projectName] ++ t)
    else buildGraphs env projectName rest

/-- `findProjectData`: project meta-graph, all named graphs, the files'
meta-graphs, and the filtered graphs map. -/
def findProjectData (env : Env) (domainUrl projectName : String) :
    Except String ProjectData × List DBCall :=
  let wrap := fun (e : String) =>
    "Could not find project data for project with id " ++ projectName ++ "; " ++ e
  let metaCtx := projectMetaUrl domainUrl projectName
  match env.getNamedGraph metaCtx projectName with
  | .error e => (.error (wrap e), [.getNamedGraph metaCtx projectName])
  | .ok projectGraph =>
    match env.getAllNamedGraphs projectName with
    | .error e => (.error (wrap e), [.getNamedGraph metaCtx projectName, .getAllNamedGraphs projectName])
    | .ok allNamed =>
      match env.fileList (projectRepoUrl domainUrl projectName) with
      | .error e =>
        (.error (wrap e),
         [.getNamedGraph metaCtx projectName, .getAllNamedGraphs projectName,
          .fileList (projectRepoUrl domainUrl projectName)])
      | .ok files =>
        let head := [DBCall.getNamedGraph metaCtx projectName, .getAllNamedGraphs projectName,
                     .fileList (projectRepoUrl domainUrl projectName)]
        match buildDocs env projectName files with
        | (.error e, t) => (.error (wrap e), head ++ t)
        | (.ok documents, t) =>
          match buildGraphs env projectName allNamed with
          | (.error e, t2) => (.error (wrap e), head ++ t ++ t2)
          | (.ok graphs, t2) =>
            (.ok ⟨projectGraph, graphs, documents, projectName⟩, head ++ t ++ t2)

/-! ## Definitions taken from the specification's wording

These are not transcriptions of the source: they state what the
specification says, to be compared with the source-derived definitions. -/

/-- The read gate as the specification words it: after case-folding and
percent-DECODING, the text must contain "select" and contain neither
"insert" nor "delete". -/
def specReadGate (raw : String) : Bool :=
  match decURIComp raw with
  | some d =>
    hasSubStr (lowerStr d) "select" &&
    !(hasSubStr (lowerStr d) "insert") &&
    !(hasSubStr (lowerStr d) "delete")
  | none => false

/-- The snapshot filter as the specification words it: keep a named graph
unless its context ends with ".meta" or it is the ACL graph. -/
def specGraphsKeepTest (aclUrl ctx : String) : Bool :=
  !(endsW ctx ".meta") && !(ctx = aclUrl)

/-- The owner authorization block of the default ACL graph: all three modes
for the creator's URI. -/
def ownerBlock (uri : String) : String :=
  "<#owner>\n    a acl:Authorization;\n    acl:agent <" ++ uri ++
  ">;\n    acl:mode acl:Read, acl:Write, acl:Control."

/-- The public-read authorization block of the default ACL graph. -/
def visitorBlock : String :=
  "<#visitor>\n    a acl:Authorization;\n    acl:agentClass foaf:Agent;\n    acl:mode acl:Read."

/-- `seg` occurs contiguously inside `s`. -/
def strHasSegment (seg s : String) : Prop := ∃ a b, s.data = a ++ seg.data ++ b

/-! ## Concrete environments used by the closed theorems -/

/-- Environment in which every collaborator call succeeds. -/
def okEnv : Env :=
  ⟨fun _ _ => .ok true, fun _ _ => .ok true, fun _ => .ok true, fun _ => .ok true,
   fun _ => .ok true, fun _ _ _ _ _ => .ok true, fun _ _ => .ok "ttl", fun _ => .ok [],
   fun _ _ => .ok "bindings", fun _ => .ok [], fun uri acl _ _ => uri ++ " " ++ acl⟩

/-- Environment in which the graph store reports repository-creation
failure through its boolean return value and everything else succeeds. -/
def falseRepoEnv : Env := { okEnv with createRepository := fun _ _ => .ok false }

/-- Environment in which `createProjectDoc` (the document-store write)
throws and everything else succeeds. -/
def docWriteFailEnv : Env := { okEnv with createProjectDoc := fun _ _ => .error "mongo down" }

/-- Environment in which `deleteProjectDoc` throws and everything else
succeeds. -/
def docDeleteFailEnv : Env := { okEnv with deleteProjectDoc := fun _ => .error "doc delete failure" }

/-- Environment whose repository enumeration returns one named graph whose
context ends in "meta" without ending in ".meta". -/
def metaSuffixEnv : Env :=
  { okEnv with getAllNamedGraphs := fun _ => .ok ["https://example.org/lbd/p1/graphs/schemeta"] }

/-- A sample creator principal. -/
def creator0 : Principal := ⟨"https://ex.org/me", "me@ex.org", []⟩

/-! ## Claim theorems -/

/-- C10: for a project-level query request whose method is not GET,
`queryProject` dispatches nothing to the graph store (empty call trace) and
resolves with no value at all (`undefined`, embedded `.ok none`) rather
than a success payload or a structured error; the read gate and dispatch
exist only inside the GET branch. -/
theorem claim10_non_get_undefined (env : Env) (method : String)
    (queryParam : Option String) (projectName : String) (h : method ≠ "GET") :
    queryProject env method queryParam projectName = (.ok none, []) := by
  unfold queryProject
  rw [if_neg h]

/-- Witness for C10 at the concrete method "POST". -/
theorem claim10_non_get_undefined_witness :
    ("POST" : String) ≠ "GET" ∧
    queryProject okEnv "POST" (some "select ?s where") "p1" = (.ok none, []) :=
  ⟨by decide, claim10_non_get_undefined okEnv "POST" (some "select ?s where") "p1" (by decide)⟩

/-- C5 (code bug): when the graph-store `createRepository` collaborator
reports failure through its boolean return value (`ok false`) and every
other call succeeds, `createProject` still resolves with the
"Project successfully created" success payload instead of a structured
error — the recorded `done` flag is never checked. -/
theorem claim5_boolean_failure_yields_success :
    falseRepoEnv.createRepository "T" "p1" = .ok false ∧
    (createProject falseRepoEnv "https://example.org" (some creator0) "T" "D" true "p1").1 =
      .ok ("https://example.org/lbd/p1 https://example.org/lbd/p1/.acl",
           "Project successfully created") := by
  exact ⟨rfl, rfl⟩

/-- C6 (code bug): in `deleteProject`, after `owner.save()` succeeded the
step record of `deleteProjectFromUser` has been overwritten by the save
result (source line 225 assigns to the slot, not to its `done` field), so
when the document-record deletion then fails, the completed removal of the
project id from the owner's list is NOT compensated: the call trace
contains no second `saveUser`, and the persisted project list has lost the
id even though the operation resolves to an error. -/
theorem claim6_clobbered_step_not_compensated :
    (deleteProject docDeleteFailEnv "https://example.org" "p1" ⟨"u", "e", ["p1", "q"]⟩).1 =
      .error "Failed to create Project with id p1; doc delete failure. Undoing past operations: SUCCESS" ∧
    (deleteProject docDeleteFailEnv "https://example.org" "p1" ⟨"u", "e", ["p1", "q"]⟩).2 =
      [.saveUser ["q"], .deleteProjectDoc "p1"] ∧
    (runTrace docDeleteFailEnv ⟨["p1"], ["p1"], ["p1", "q"]⟩
        (deleteProject docDeleteFailEnv "https://example.org" "p1" ⟨"u", "e", ["p1", "q"]⟩).2).userProjects =
      ["q"] := by
  exact ⟨rfl, rfl, rfl⟩

/-- C1 (code bug): when the caller supplies neither a custom ACL file nor a
reference to an existing ACL graph, `setAcl` returns the hardcoded
`https://lbdserver.org/lbd/p1/.acl`, and `createNamedGraph` assigns that
reference to the new resource, while the ACL graph `createProject` created
for the same project under the configured base domain
`https://example.org` lives at `https://example.org/lbd/p1/.acl` — the two
differ, falsifying the claimed equality for every base domain other than
the hardcoded one. -/
theorem claim1_default_acl_ignores_configured_domain :
    (setAcl okEnv "p1" none none none none).1 = .ok "https://lbdserver.org/lbd/p1/.acl" ∧
    projectAclUrl "https://example.org" "p1" = "https://example.org/lbd/p1/.acl" ∧
    (createProject okEnv "https://example.org" (some creator0) "T" "D" true "p1").2.contains
      (.createNamedGraph "p1" "https://example.org/lbd/p1/.acl" none) = true ∧
    DBCall.createNamedGraph "p1" "https://example.org/lbd/p1/graphs/g1"
        (some "https://lbdserver.org/lbd/p1/.acl") ∈
      (createNamedGraphOp okEnv "https://example.org" "p1" (some creator0)
        none none none none none none none "g1").2 ∧
    ("https://lbdserver.org/lbd/p1/.acl" : String) ≠ "https://example.org/lbd/p1/.acl" := by
  refine ⟨rfl, rfl, rfl, ?_, by decide⟩
  decide

/-- C7 (counterexample): `createNamedGraph` never consults the principal:
with no resolved principal it does not fail with an Unauthenticated-class
error; its first action is a graph-store call (`getAllNamedGraphs`), and in
an all-succeeding environment it resolves with the 201 success payload. -/
theorem claim7_counterexample :
    (createNamedGraphOp okEnv "https://example.org" "p1" none
        none none none none none none none "g1").2.head? =
      some (.getAllNamedGraphs "p1") ∧
    (createNamedGraphOp okEnv "https://example.org" "p1" none
        none none none none none none none "g1").1 =
      .ok ("Successfully created the named graph with context https://example.org/lbd/p1/graphs/g1",
           "https://example.org/lbd/p1/graphs/g1 https://lbdserver.org/lbd/p1/.acl",
           "https://example.org/lbd/p1/graphs/g1") := by
  exact ⟨rfl, rfl⟩

/-- C7 (amended): only `createProject` enforces the principal requirement:
with no resolved principal it fails with the authentication error before
any store call (empty trace); `createNamedGraph` does not check the
principal at this layer — whatever the principal, its first action is
already a store call. -/
theorem claim7_amended_auth :
    (∀ (env : Env) (domainUrl title descr : String) (isOpen : Bool) (id : String),
      createProject env domainUrl none title descr isOpen id =
        (.error "You must be authenticated to create a new LBDserver Project", [])) ∧
    (∀ (env : Env) (domainUrl projectName : String) (user : Option Principal)
       (ba fa ban fan fg bl bd : Option String) (newId : String),
      (createNamedGraphOp env domainUrl projectName user ba fa ban fan fg bl bd newId).2.head? =
        some (.getAllNamedGraphs projectName)) := by
  constructor
  · intro env domainUrl title descr isOpen id
    rfl
  · intro env domainUrl projectName user ba fa ban fan fg bl bd newId
    unfold createNamedGraphOp
    cases hA : env.getAllNamedGraphs projectName with
    | error e => rfl
    | ok als =>
      rcases hs : setAcl env projectName ba fa ban fan with ⟨r1, t1⟩
      simp only [hs]
      cases r1 with
      | error e => rfl
      | ok acl =>
        rcases hg : setGraph env projectName acl
            (domainUrl ++ "/lbd/" ++ projectName ++ "/graphs/" ++ newId) fg with ⟨r2, t2⟩
        simp only [hg]
        cases r2 with
        | error e => rfl
        | ok u2 =>
          rcases hm : setMetaGraph env projectName
              (domainUrl ++ "/lbd/" ++ projectName ++ "/graphs/" ++ newId) acl bl bd with ⟨r3, t3⟩
          simp only [hm]
          cases r3 with
          | error e => rfl
          | ok u3 => rfl

/-- Evaluation of the compensation pass when only the repository-creation
step is done: the single compensation deletes the repository and succeeds. -/
theorem undo_repo_only (env : Env) (id : String) (projs : List String)
    (h3 : env.deleteRepository id = .ok true) :
    undoDatabaseActions env (createProjectCommands id projs true false false) =
      (.ok (), [.deleteRepository id]) := by
  unfold undoDatabaseActions createProjectCommands
  simp [runUndos, runCall, h3, JsVal.doneTruthy, JsVal.undoOf]

/-- C2: whenever the document-store record write of `createProject` fails
after the graph-store repository creation completed (and the compensating
repository deletion succeeds), the operation raises the composite error,
the issued calls are exactly the two forward steps followed by the
compensating `deleteRepository`, and replaying the trace over any backing
state not already containing the id returns that state unchanged — in
particular the owner's persisted project list is untouched (no `saveUser`
call ever happens). -/
theorem claim2_docstore_failure_compensated (env : Env)
    (domainUrl title descr : String) (isOpen : Bool) (id em : String)
    (creator : Principal) (st0 : DBState)
    (h1 : env.createRepository title id = .ok true)
    (h2 : env.createProjectDoc (projectRepoUrl domainUrl id) id = .error em)
    (h3 : env.deleteRepository id = .ok true)
    (h4 : id ∉ st0.repos) :
    createProject env domainUrl (some creator) title descr isOpen id =
      (.error ("Failed to create Project; " ++ em ++ ". Undoing past operations: SUCCESS"),
       [.createRepository title id, .createProjectDoc (projectRepoUrl domainUrl id) id,
        .deleteRepository id]) ∧
    runTrace env st0
      [.createRepository title id, .createProjectDoc (projectRepoUrl domainUrl id) id,
       .deleteRepository id] = st0 := by
  constructor
  · unfold createProject
    simp only [h1, h2, undo_repo_only env id _ h3, createProjectErr]
    rw [String.append_assoc]
    rfl
  · have hfil : st0.repos.filter (fun a => a ≠ id) = st0.repos := by
      rw [List.filter_eq_self]
      intro a ha
      simp only [decide_eq_true_eq]
      exact fun heq => h4 (heq ▸ ha)
    unfold runTrace
    simp only [List.foldl_cons, List.foldl_nil, applyCall, h1, h2, h3]
    simp only [List.filter_append, hfil]
    have : (List.filter (fun a => a ≠ id) [id]) = [] := by simp
    rw [this, List.append_nil]

/-- Witness for C2 in the concrete environment where only the
document-store write throws. -/
theorem claim2_docstore_failure_compensated_witness :
    (docWriteFailEnv.createRepository "T" "p1" = .ok true ∧
     docWriteFailEnv.createProjectDoc (projectRepoUrl "https://example.org" "p1") "p1" =
       .error "mongo down" ∧
     docWriteFailEnv.deleteRepository "p1" = .ok true ∧
     "p1" ∉ (⟨[], [], ["q"]⟩ : DBState).repos) ∧
    (createProject docWriteFailEnv "https://example.org" (some creator0) "T" "D" true "p1" =
      (.error "Failed to create Project; mongo down. Undoing past operations: SUCCESS",
       [.createRepository "T" "p1",
        .createProjectDoc (projectRepoUrl "https://example.org" "p1") "p1",
        .deleteRepository "p1"]) ∧
     runTrace docWriteFailEnv ⟨[], [], ["q"]⟩
       [.createRepository "T" "p1",
        .createProjectDoc (projectRepoUrl "https://example.org" "p1") "p1",
        .deleteRepository "p1"] = ⟨[], [], ["q"]⟩) :=
  ⟨⟨rfl, rfl, rfl, by decide⟩,
   claim2_docstore_failure_compensated docWriteFailEnv "https://example.org" "T" "D" true
     "p1" "mongo down" creator0 ⟨[], [], ["q"]⟩ rfl rfl rfl (by decide)⟩

/-- The failure message one compensation contributes, if it fails. -/
def undoFailMsg (env : Env) (c : String × JsVal) : Option String :=
  match c.2.undoOf with
  | some u =>
    match runCall env u with
    | .ok _ => none
    | .error e => some (c.1 ++ ": " ++ e)
  | none => none

/-- The compensations `runUndos` attempts are exactly those of the steps
with a truthy done flag, in list order, regardless of which compensations
fail. -/
theorem runUndos_trace (env : Env) (l : List (String × JsVal)) :
    (runUndos env l).2 =
      (l.filter fun c => c.2.doneTruthy).filterMap fun c => c.2.undoOf := by
  induction l with
  | nil => rfl
  | cons c rest ih =>
    obtain ⟨nm, v⟩ := c
    cases v with
    | savedDoc l2 => simpa [runUndos, JsVal.doneTruthy] using ih
    | step d u =>
      cases d with
      | false => simpa [runUndos, JsVal.doneTruthy] using ih
      | true =>
        cases hru : runUndos env rest with
        | mk fs tr =>
          rw [hru] at ih
          cases hrc : runCall env u with
          | ok b =>
            simpa [runUndos, JsVal.doneTruthy, JsVal.undoOf, hru, hrc] using ih
          | error e =>
            simpa [runUndos, JsVal.doneTruthy, JsVal.undoOf, hru, hrc] using ih

/-- The failure messages `runUndos` collects are exactly those of the
attempted compensations that fail, in the same order. -/
theorem runUndos_failures (env : Env) (l : List (String × JsVal)) :
    (runUndos env l).1 =
      (l.filter fun c => c.2.doneTruthy).filterMap (undoFailMsg env) := by
  induction l with
  | nil => rfl
  | cons c rest ih =>
    obtain ⟨nm, v⟩ := c
    cases v with
    | savedDoc l2 => simpa [runUndos, JsVal.doneTruthy] using ih
    | step d u =>
      cases d with
      | false => simpa [runUndos, JsVal.doneTruthy] using ih
      | true =>
        cases hru : runUndos env rest with
        | mk fs tr =>
          rw [hru] at ih
          cases hrc : runCall env u with
          | ok b =>
            simpa [runUndos, JsVal.doneTruthy, JsVal.undoOf, undoFailMsg, hru, hrc] using ih
          | error e =>
            simpa [runUndos, JsVal.doneTruthy, JsVal.undoOf, undoFailMsg, hru, hrc] using ih

/-- C4: during failure handling, `undoDatabaseActions` invokes compensations
exactly for the steps whose status is done (never for the others), in strict
reverse declaration order; a failing compensation does not prevent the
remaining ones (every done step's compensation appears in the attempted
trace unconditionally); and it succeeds iff no attempted compensation
failed, otherwise raising the single composite error aggregating every
compensation failure. -/
theorem claim4_compensation_invariant (env : Env) (cmds : List (String × JsVal)) :
    (undoDatabaseActions env cmds).2 =
      ((cmds.filter fun c => c.2.doneTruthy).reverse.filterMap fun c => c.2.undoOf) ∧
    (undoDatabaseActions env cmds).1 =
      (if ((cmds.filter fun c => c.2.doneTruthy).reverse.filterMap (undoFailMsg env)).isEmpty
       then .ok ()
       else .error (String.intercalate "; "
         ((cmds.filter fun c => c.2.doneTruthy).reverse.filterMap (undoFailMsg env)))) := by
  unfold undoDatabaseActions
  cases hru : runUndos env cmds.reverse with
  | mk fs tr =>
    have h2 := runUndos_trace env cmds.reverse
    have h1 := runUndos_failures env cmds.reverse
    rw [hru] at h1 h2
    rw [List.filter_reverse] at h1 h2
    simp only at h1 h2
    exact ⟨h2, by rw [h1]⟩

/-- C3 (counterexample): the query "select ?s where %64elete" contains the
mutation token "delete" after percent-decoding (the spec's normalization),
so the claim requires it to be rejected and never dispatched; the code,
which percent-ENCODES for the comparison, accepts it as a read and
dispatches it to the graph store. -/
theorem claim3_counterexample :
    specReadGate "select ?s where %64elete" = false ∧
    hasSubStr (lowerStr ((decURIComp "select ?s where %64elete").getD "")) "delete" = true ∧
    queryProject okEnv "GET" (some "select ?s where %64elete") "p1" =
      (.ok (some "bindings"), [.queryRepository "p1" "select%20%3Fs%20where%20%2564elete"]) := by
  exact ⟨by decide, by decide, rfl⟩

/-- C3 (amended): a GET request with a query is accepted as a read and
dispatched to the graph store iff the raw query, lowercased, contains
"select" and the `encodeURIComponent`-encoded query, lowercased, contains
neither "insert" nor "delete" (encoding, not decoding, is the
normalization used for the mutation tokens); a rejected query is never
dispatched and fails with the wrapped gate error. -/
theorem claim3_amended_gate (env : Env) (raw projectName : String) :
    ((queryProject env "GET" (some raw) projectName).2 =
      if queryReadGate raw then [.queryRepository projectName (encURIComp raw)] else []) ∧
    (queryReadGate raw = false →
      (queryProject env "GET" (some raw) projectName).1 = .error queryGateErr) := by
  have hmain : queryProject env "GET" (some raw) projectName =
      if queryReadGate raw then
        (match env.queryRepository projectName (encURIComp raw) with
         | .ok results =>
           (.ok (some results), [.queryRepository projectName (encURIComp raw)])
         | .error e =>
           (.error ("Could not complete query; " ++ e),
            [.queryRepository projectName (encURIComp raw)]))
      else (.error queryGateErr, []) := by
    unfold queryProject
    rw [if_pos rfl]
  constructor
  · rw [hmain]
    cases hg : queryReadGate raw with
    | false => simp
    | true =>
      cases hq : env.queryRepository projectName (encURIComp raw) with
      | ok r => simp [hq]
      | error e => simp [hq]
  · intro h
    rw [hmain, h]
    simp

/-- Witness for C3's amended gate at a query carrying a mutation token
alongside "select": it is rejected and nothing reaches the store. -/
theorem claim3_amended_gate_witness :
    queryReadGate "select where delete x" = false ∧
    (queryProject okEnv "GET" (some "select where delete x") "p1").2 = [] ∧
    (queryProject okEnv "GET" (some "select where delete x") "p1").1 = .error queryGateErr :=
  ⟨by decide,
   ((claim3_amended_gate okEnv "select where delete x" "p1").1.trans (by decide)),
   (claim3_amended_gate okEnv "select where delete x" "p1").2 (by decide)⟩

/-- The documents fan-out succeeds when every meta fetch succeeds. -/
theorem buildDocs_ok (env : Env) (pn : String) (urls : List String)
    (hGet : ∀ c, ∃ s, env.getNamedGraph c pn = .ok s) :
    ∃ m t, buildDocs env pn urls = (.ok m, t) := by
  induction urls with
  | nil => exact ⟨[], [], rfl⟩
  | cons url rest ih =>
    obtain ⟨m, t, hb⟩ := ih
    obtain ⟨s, hs⟩ := hGet (url ++ ".meta")
    exact ⟨(url, s) :: m, .getNamedGraph (url ++ ".meta") pn :: t, by simp [buildDocs, hs, hb]⟩

/-- The graphs fan-out succeeds when every meta fetch succeeds, and its
keys are exactly the enumerated contexts passing the source's suffix
test, in enumeration order. -/
theorem buildGraphs_keys (env : Env) (pn : String) (ctxs : List String)
    (hGet : ∀ c, ∃ s, env.getNamedGraph c pn = .ok s) :
    ∃ m t, buildGraphs env pn ctxs = (.ok m, t) ∧
      m.map Prod.fst = ctxs.filter graphsKeepTest := by
  induction ctxs with
  | nil => exact ⟨[], [], rfl, rfl⟩
  | cons c rest ih =>
    obtain ⟨m, t, hb, hk⟩ := ih
    cases hc : graphsKeepTest c with
    | true =>
      obtain ⟨s, hs⟩ := hGet (c ++ ".meta")
      refine ⟨(c, s) :: m, .getNamedGraph (c ++ ".meta") pn :: t,
        by simp [buildGraphs, hc, hs, hb], ?_⟩
      simp [List.filter_cons, hc, hk]
    | false =>
      refine ⟨m, t, by simp [buildGraphs, hc, hb], ?_⟩
      simp [List.filter_cons, hc, hk]

/-- C9 (counterexample): a named graph whose context ends in "meta" without
ending in ".meta" (and which is not the ACL graph) must appear in the
snapshot's graphs component according to the claim, but `findProjectData`
excludes it: the graphs component comes back empty. -/
theorem claim9_counterexample :
    specGraphsKeepTest (projectAclUrl "https://example.org" "p1")
      "https://example.org/lbd/p1/graphs/schemeta" = true ∧
    graphsKeepTest "https://example.org/lbd/p1/graphs/schemeta" = false ∧
    (findProjectData metaSuffixEnv "https://example.org" "p1").1 =
      .ok ⟨"ttl", [], [], "p1"⟩ := by
  exact ⟨by decide, by decide, rfl⟩

/-- C9 (amended): when every fetch succeeds, the graphs component of the
snapshot has an entry for exactly those enumerated contexts that end
neither with "acl" nor with "meta" (plain suffix tests; every `.meta`
graph and the ACL graph are excluded as special cases of these). -/
theorem claim9_amended_filter (env : Env) (domainUrl projectName : String)
    (ctxs files : List String)
    (hAll : env.getAllNamedGraphs projectName = .ok ctxs)
    (hFiles : env.fileList (projectRepoUrl domainUrl projectName) = .ok files)
    (hGet : ∀ c, ∃ s, env.getNamedGraph c projectName = .ok s) :
    ∃ pd, (findProjectData env domainUrl projectName).1 = .ok pd ∧
      pd.graphs.map Prod.fst = ctxs.filter graphsKeepTest := by
  obtain ⟨g0, hg0⟩ := hGet (projectMetaUrl domainUrl projectName)
  obtain ⟨docs, td, hdocs⟩ := buildDocs_ok env projectName files hGet
  obtain ⟨m, t, hbg, hkeys⟩ := buildGraphs_keys env projectName ctxs hGet
  refine ⟨⟨g0, m, docs, projectName⟩, ?_, hkeys⟩
  unfold findProjectData
  simp [hg0, hAll, hFiles, hdocs, hbg]

/-- Witness for C9's amended filter on the concrete enumeration holding one
"…schemeta" context: the snapshot succeeds and its graphs component is
empty. -/
theorem claim9_amended_filter_witness :
    (metaSuffixEnv.getAllNamedGraphs "p1" = .ok ["https://example.org/lbd/p1/graphs/schemeta"] ∧
     metaSuffixEnv.fileList (projectRepoUrl "https://example.org" "p1") = .ok [] ∧
     (∀ c, ∃ s, metaSuffixEnv.getNamedGraph c "p1" = .ok s)) ∧
    (∃ pd, (findProjectData metaSuffixEnv "https://example.org" "p1").1 = .ok pd ∧
      pd.graphs.map Prod.fst =
        (["https://example.org/lbd/p1/graphs/schemeta"].filter graphsKeepTest)) :=
  ⟨⟨rfl, rfl, fun _ => ⟨"ttl", rfl⟩⟩,
   claim9_amended_filter metaSuffixEnv "https://example.org" "p1"
     ["https://example.org/lbd/p1/graphs/schemeta"] [] rfl rfl (fun _ => ⟨"ttl", rfl⟩)⟩

/-! ## Occurrence counting for the ACL generator -/

/-- `leadsList` is the boolean form of "take `p.length` gives `p`". -/
theorem leadsList_iff_take (p : List Char) : ∀ l : List Char,
    leadsList p l = true ↔ l.take p.length = p := by
  induction p with
  | nil => intro l; simp [leadsList]
  | cons x xs ih =>
    intro l
    cases l with
    | nil => simp [leadsList]
    | cons y ys =>
      simp only [leadsList, List.length_cons, List.take_succ_cons, List.cons.injEq,
        Bool.and_eq_true, decide_eq_true_eq]
      rw [ih ys]
      constructor
      · rintro ⟨h1, h2⟩; exact ⟨h1.symm, h2⟩
      · rintro ⟨h1, h2⟩; exact ⟨h1.symm, h2⟩

/-- A matched pattern is no longer than the text. -/
theorem leadsList_length_le (p l : List Char) (h : leadsList p l = true) :
    p.length ≤ l.length := by
  rw [leadsList_iff_take] at h
  have := congrArg List.length h
  rw [List.length_take] at this
  omega

/-- A match may be truncated to any prefix long enough to hold the
pattern. -/
theorem leadsList_append_of_le (p a r : List Char) (hlen : p.length ≤ a.length) :
    leadsList p (a ++ r) = leadsList p a := by
  rw [Bool.eq_iff_iff, leadsList_iff_take, leadsList_iff_take,
    List.take_append_of_le_length hlen]

/-- A match that extends past `a` into `c :: b` must contain `c`. -/
theorem mem_of_leads_past (p a : List Char) (c : Char) (b : List Char)
    (h : leadsList p (a ++ c :: b) = true) (hlen : a.length < p.length) : c ∈ p := by
  rw [leadsList_iff_take] at h
  rw [List.take_append_eq_append_take] at h
  have h1 : a.take p.length = a := List.take_of_length_le (Nat.le_of_lt hlen)
  have h2 : 1 ≤ p.length - a.length := by omega
  rw [h1] at h
  have h3 : (c :: b).take (p.length - a.length) =
      c :: b.take (p.length - a.length - 1) := by
    cases hn : p.length - a.length with
    | zero => omega
    | succ m => simp [hn, List.take_succ_cons]
  rw [h3] at h
  rw [← h]
  exact List.mem_append_right _ (List.mem_cons_self c _)

/-- Occurrence counting distributes over a separator character that does
not occur in the pattern: no occurrence can span the separator. -/
theorem subCount_sep (p : List Char) (hp : p ≠ []) (c : Char) (hc : c ∉ p)
    (a b : List Char) : subCount p (a ++ c :: b) = subCount p a + subCount p b := by
  induction a with
  | nil =>
    have hl : leadsList p (c :: b) = false := by
      cases p with
      | nil => exact absurd rfl hp
      | cons x xs =>
        cases h2 : leadsList (x :: xs) (c :: b) with
        | false => rfl
        | true =>
          exfalso
          have hx : x = c := by
            simp only [leadsList, Bool.and_eq_true, decide_eq_true_eq] at h2
            exact h2.1
          exact hc (hx ▸ List.mem_cons_self x xs)
    simp [subCount, hl]
  | cons x a2 ih =>
    have key : leadsList p (x :: (a2 ++ c :: b)) = leadsList p (x :: a2) := by
      rcases le_or_lt p.length (x :: a2).length with hle | hgt
      · have h := leadsList_append_of_le p (x :: a2) (c :: b) hle
        simpa using h
      · cases h1 : leadsList p (x :: (a2 ++ c :: b)) with
        | false =>
          cases h2 : leadsList p (x :: a2) with
          | false => rfl
          | true => exact absurd (leadsList_length_le p (x :: a2) h2) (Nat.not_le_of_lt hgt)
        | true =>
          exfalso
          exact hc (mem_of_leads_past p (x :: a2) c b (by simpa using h1) hgt)
    have lhs_eq : subCount p ((x :: a2) ++ c :: b) =
        (if leadsList p (x :: (a2 ++ c :: b)) then 1 else 0) + subCount p (a2 ++ c :: b) := rfl
    have rhs_eq : subCount p (x :: a2) =
        (if leadsList p (x :: a2) then 1 else 0) + subCount p a2 := rfl
    rw [lhs_eq, key, ih, rhs_eq]
    omega

/-! ## C8: the default ACL graph text -/

/-- "Authorization" as a character pattern: every authorization block of
the generated graph contains it exactly once, and it contains none of the
separator characters around the embedded identifiers. -/
def authTok : List Char := "Authorization".data

/-- "agentClass" as a character pattern: only the public-read block
contains it. -/
def agcTok : List Char := "agentClass".data

/-- Leading comment of the generated graph, up to the embedded id. -/
def aclHeadLit : String := "\n# Root ACL resource for LBDserver project with id"

/-- Prefix declarations and the owner block opening, up to the embedded
creator URI. -/
def aclPreamble : String := "@prefix acl: <http://www.w3.org/ns/auth/acl#>.\n@prefix lbd: <https://lbdserver.org/vocabulary#>.\n@prefix vcard: <http://www.w3.org/2006/vcard/ns#>.\n@prefix foaf: <http://xmlns.com/foaf/0.1/>.\n\n# The owner has all permissions\n<#owner>\n    a acl:Authorization;\n    acl:agent "

/-- The owner modes line, between the two embedded creator URIs. -/
def aclModes : String := ";\n    acl:mode acl:Read, acl:Write, acl:Control.\n\n"

/-- The vcard predicate between the second URI and the email. -/
def aclEmailLit : String := " vcard:email "

/-- End of the always-present part, after the embedded email. -/
def aclTailClosed : String := ".\n\n"

set_option maxRecDepth 8192 in
/-- Structure of the generated ACL text: literal chunks joined by separator
characters around the embedded id, URIs and email. -/
theorem aclData_shape (id uri email : String) (isOpen : Bool) :
    (createDefaultAclGraphData id uri email isOpen).data =
      aclHeadLit.data ++ ' ' ::
        (id.data ++ '\n' ::
          (aclPreamble.data ++ '<' ::
            (uri.data ++ '>' ::
              (aclModes.data ++ '<' ::
                (uri.data ++ '>' ::
                  (aclEmailLit.data ++ '"' ::
                    (email.data ++ '"' ::
                      (aclTailClosed.data ++
                        (if isOpen then '\n' :: ' ' :: ' ' :: visitorBlock.data
                         else []))))))))) := by
  have e1 : ("\n# Root ACL resource for LBDserver project with id " : String).data =
      aclHeadLit.data ++ [' '] := rfl
  have e2 : ("\n@prefix acl: <http://www.w3.org/ns/auth/acl#>.\n@prefix lbd: <https://lbdserver.org/vocabulary#>.\n@prefix vcard: <http://www.w3.org/2006/vcard/ns#>.\n@prefix foaf: <http://xmlns.com/foaf/0.1/>.\n\n# The owner has all permissions\n<#owner>\n    a acl:Authorization;\n    acl:agent <" : String).data =
      '\n' :: (aclPreamble.data ++ ['<']) := rfl
  have e3 : (">;\n    acl:mode acl:Read, acl:Write, acl:Control.\n\n<" : String).data =
      '>' :: (aclModes.data ++ ['<']) := rfl
  have e4 : ("> vcard:email \"" : String).data =
      '>' :: (aclEmailLit.data ++ ['"']) := rfl
  have e5 : ("\".\n\n" : String).data = '"' :: aclTailClosed.data := rfl
  have e6 : ("\n  <#visitor>\n    a acl:Authorization;\n    acl:agentClass foaf:Agent;\n    acl:mode acl:Read." : String).data =
      '\n' :: ' ' :: ' ' :: visitorBlock.data := rfl
  cases isOpen with
  | false =>
    simp only [createDefaultAclGraphData, Bool.false_eq_true, if_false,
      String.data_append, e1, e2, e3, e4, e5, e6]
    simp [aclHeadLit, aclPreamble, aclModes, aclEmailLit, aclTailClosed, visitorBlock,
      List.append_assoc]
  | true =>
    simp only [createDefaultAclGraphData, if_true, String.data_append,
      e1, e2, e3, e4, e5, e6]
    simp [aclHeadLit, aclPreamble, aclModes, aclEmailLit, aclTailClosed, visitorBlock,
      List.append_assoc]

/-- Prefix declarations above the owner block. -/
def aclPrefixLit : String := "@prefix acl: <http://www.w3.org/ns/auth/acl#>.\n@prefix lbd: <https://lbdserver.org/vocabulary#>.\n@prefix vcard: <http://www.w3.org/2006/vcard/ns#>.\n@prefix foaf: <http://xmlns.com/foaf/0.1/>.\n\n# The owner has all permissions\n"

/-- Opening of the owner block, up to the embedded creator URI. -/
def ownerHeadLit : String := "<#owner>\n    a acl:Authorization;\n    acl:agent "

/-- Closing of the owner block, after the embedded creator URI. -/
def ownerTailLit : String := ";\n    acl:mode acl:Read, acl:Write, acl:Control."

set_option maxRecDepth 8192 in
/-- The preamble chunk splits at the start of the owner block. -/
theorem aclPreamble_split : aclPreamble.data = aclPrefixLit.data ++ ownerHeadLit.data := rfl

set_option maxRecDepth 8192 in
/-- The modes chunk is the owner block's closing plus a blank line. -/
theorem aclModes_split : aclModes.data = ownerTailLit.data ++ ['\n', '\n'] := rfl

set_option maxRecDepth 8192 in
/-- Decomposition of the owner authorization block around the embedded
URI. -/
theorem ownerBlock_split (uri : String) :
    (ownerBlock uri).data =
      ownerHeadLit.data ++ '<' :: (uri.data ++ '>' :: ownerTailLit.data) := by
  have h1 : ("<#owner>\n    a acl:Authorization;\n    acl:agent <" : String).data =
      ownerHeadLit.data ++ ['<'] := rfl
  have h2 : (">;\n    acl:mode acl:Read, acl:Write, acl:Control." : String).data =
      '>' :: ownerTailLit.data := rfl
  simp only [ownerBlock, String.data_append, h1, h2]
  simp [ownerHeadLit, ownerTailLit, List.append_assoc]

set_option maxRecDepth 8192 in
/-- C8: for every creator identity and `open` flag (whose embedded id, URI
and email do not themselves contain the marker tokens), the generated
default ACL graph text contains exactly one authorization block plus a
second one iff `open` is true; the always-present one is the owner block
granting exactly Read, Write and Control to the creator's URI; the
conditional one is the public-read (`agentClass foaf:Agent`) block, and no
`agentClass` authorization appears when `open` is false — so no principal
beyond the creator and, conditionally, the universal agent class is ever
granted anything. -/
theorem claim8_default_acl_authorizations (id uri email : String) (isOpen : Bool)
    (hid : subCount authTok id.data = 0)
    (huri : subCount authTok uri.data = 0)
    (hemail : subCount authTok email.data = 0)
    (hid2 : subCount agcTok id.data = 0)
    (huri2 : subCount agcTok uri.data = 0)
    (hemail2 : subCount agcTok email.data = 0) :
    subCount authTok (createDefaultAclGraphData id uri email isOpen).data =
      (if isOpen then 2 else 1) ∧
    strHasSegment (ownerBlock uri) (createDefaultAclGraphData id uri email isOpen) ∧
    (isOpen = true →
      strHasSegment visitorBlock (createDefaultAclGraphData id uri email isOpen)) ∧
    subCount agcTok (createDefaultAclGraphData id uri email isOpen).data =
      (if isOpen then 1 else 0) := by
  have hpA : authTok ≠ [] := by decide
  have hpG : agcTok ≠ [] := by decide
  refine ⟨?_, ?_, ?_, ?_⟩
  · cases isOpen with
    | false =>
      rw [aclData_shape]
      rw [subCount_sep authTok hpA ' ' (by decide), subCount_sep authTok hpA '\n' (by decide),
          subCount_sep authTok hpA '<' (by decide), subCount_sep authTok hpA '>' (by decide),
          subCount_sep authTok hpA '<' (by decide), subCount_sep authTok hpA '>' (by decide),
          subCount_sep authTok hpA '"' (by decide), subCount_sep authTok hpA '"' (by decide),
          hid, huri, hemail]
      decide
    | true =>
      rw [aclData_shape]
      rw [subCount_sep authTok hpA ' ' (by decide), subCount_sep authTok hpA '\n' (by decide),
          subCount_sep authTok hpA '<' (by decide), subCount_sep authTok hpA '>' (by decide),
          subCount_sep authTok hpA '<' (by decide), subCount_sep authTok hpA '>' (by decide),
          subCount_sep authTok hpA '"' (by decide), subCount_sep authTok hpA '"' (by decide),
          hid, huri, hemail]
      decide
  · refine ⟨aclHeadLit.data ++ ' ' :: (id.data ++ '\n' :: aclPrefixLit.data),
      '\n' :: '\n' :: '<' :: (uri.data ++ '>' ::
        (aclEmailLit.data ++ '"' :: (email.data ++ '"' ::
          (aclTailClosed.data ++
            (if isOpen then '\n' :: ' ' :: ' ' :: visitorBlock.data else []))))), ?_⟩
    rw [aclData_shape, ownerBlock_split, aclPreamble_split, aclModes_split]
    simp [List.append_assoc]
  · intro h
    subst h
    refine ⟨aclHeadLit.data ++ ' ' :: (id.data ++ '\n' ::
      (aclPreamble.data ++ '<' :: (uri.data ++ '>' ::
        (aclModes.data ++ '<' :: (uri.data ++ '>' ::
          (aclEmailLit.data ++ '"' :: (email.data ++ '"' ::
            (aclTailClosed.data ++ ['\n', ' ', ' '])))))))), [], ?_⟩
    rw [aclData_shape]
    simp [List.append_assoc]
  · cases isOpen with
    | false =>
      rw [aclData_shape]
      rw [subCount_sep agcTok hpG ' ' (by decide), subCount_sep agcTok hpG '\n' (by decide),
          subCount_sep agcTok hpG '<' (by decide), subCount_sep agcTok hpG '>' (by decide),
          subCount_sep agcTok hpG '<' (by decide), subCount_sep agcTok hpG '>' (by decide),
          subCount_sep agcTok hpG '"' (by decide), subCount_sep agcTok hpG '"' (by decide),
          hid2, huri2, hemail2]
      decide
    | true =>
      rw [aclData_shape]
      rw [subCount_sep agcTok hpG ' ' (by decide), subCount_sep agcTok hpG '\n' (by decide),
          subCount_sep agcTok hpG '<' (by decide), subCount_sep agcTok hpG '>' (by decide),
          subCount_sep agcTok hpG '<' (by decide), subCount_sep agcTok hpG '>' (by decide),
          subCount_sep agcTok hpG '"' (by decide), subCount_sep agcTok hpG '"' (by decide),
          hid2, huri2, hemail2]
      decide

/-- Witness for C8 at a concrete creator and `open = true`: two
authorization blocks, the owner block and the public-read block. -/
theorem claim8_default_acl_authorizations_witness :
    (subCount authTok ("p1" : String).data = 0 ∧
     subCount authTok ("https://ex.org/me" : String).data = 0 ∧
     subCount authTok ("me@ex.org" : String).data = 0 ∧
     subCount agcTok ("p1" : String).data = 0 ∧
     subCount agcTok ("https://ex.org/me" : String).data = 0 ∧
     subCount agcTok ("me@ex.org" : String).data = 0) ∧
    subCount authTok (createDefaultAclGraphData "p1" "https://ex.org/me" "me@ex.org" true).data = 2 ∧
    strHasSegment (ownerBlock "https://ex.org/me")
      (createDefaultAclGraphData "p1" "https://ex.org/me" "me@ex.org" true) ∧
    strHasSegment visitorBlock
      (createDefaultAclGraphData "p1" "https://ex.org/me" "me@ex.org" true) := by
  have h := claim8_default_acl_authorizations "p1" "https://ex.org/me" "me@ex.org" true
    (by decide) (by decide) (by decide) (by decide) (by decide) (by decide)
  exact ⟨⟨by decide, by decide, by decide, by decide, by decide, by decide⟩,
    h.1, h.2.1, h.2.2.1 rfl⟩

end Lbd

example : Lbd.encURIComp "select ?s where %64elete" = "select%20%3Fs%20where%20%2564elete" := by decide

example : Lbd.decURIComp "select ?s where %64elete" = some "select ?s where delete" := by decide

example : Lbd.hasSubStr (Lbd.lowerStr "A SELECT x") "select" = true := by decide

example : Lbd.endsW "a/b.meta" ".meta" = true ∧ Lbd.endsW "a/bmeta" ".meta" = false ∧
    Lbd.endsW "a/bmeta" "meta" = true := by decide

example : Lbd.subCount "aa".data "aaa b aa".data = 3 := by decide
